import Mathlib

/-!
Verification of the cart/order core of the single-file cookie-shop storefront
(`src/cookie_shop_single_file_react_app.jsx`).

The JavaScript cart is a plain object mapping product ids to quantities.
We embed it as an insertion-ordered association list with unique keys
(JS object semantics: updating an existing key keeps its position, a new
key is appended at the end).  JS numbers used as quantities are embedded
as `Int`; prices as `ℚ`.  Stateful React `setX` calls are embedded as
explicit state passing on a `ShopState` record.
-/

namespace CookieShop

/-- Embedding of the product records of `SAMPLE_PRODUCTS` (id, name, price,
category, desc, img). -/
structure Product where
  id : String
  name : String
  price : ℚ
  category : String
  desc : String
  img : String
deriving DecidableEq

/-- The cart object: a productId → quantity mapping, embedded as an
insertion-ordered association list (JS object semantics). -/
abbrev Cart := List (String × Int)

/-- Lookup of `cart[productId]` (`none` models JS `undefined`). -/
def Cart.get (cart : Cart) (id : String) : Option Int :=
  (cart.find? (fun e => e.1 == id)).map (fun e => e.2)

/-- Key-membership test for a JS object (`productId in cart`). -/
def Cart.hasKey (cart : Cart) (id : String) : Bool :=
  cart.any (fun e => e.1 == id)

/-- JS object assignment `next[id] = v`: an existing key keeps its position
and gets the new value, a fresh key is appended at the end. -/
def Cart.setKey (cart : Cart) (id : String) (v : Int) : Cart :=
  if cart.any (fun e => e.1 == id) then
    cart.map (fun e => if e.1 == id then (e.1, v) else e)
  else
    cart ++ [(id, v)]

/-- JS `delete next[id]`. -/
def Cart.delKey (cart : Cart) (id : String) : Cart :=
  cart.filter (fun e => !(e.1 == id))

/-- Embedding of `addToCart(productId, qty = 1)`:
`next[productId] = (next[productId] || 0) + qty` (the `|| 0` collapses a
missing key — and a stored `0`, which is also `0` — to `0`). -/
def addToCart (prev : Cart) (productId : String) (qty : Int) : Cart :=
  Cart.setKey prev productId (((Cart.get prev productId).getD 0) + qty)

/-- Embedding of `updateQty(productId, qty)`:
`if (qty <= 0) delete next[productId]; else next[productId] = qty`. -/
def updateQty (prev : Cart) (productId : String) (qty : Int) : Cart :=
  if qty ≤ 0 then Cart.delKey prev productId
  else Cart.setKey prev productId qty

/-- Embedding of `clearCart()`: `setCart({})`. -/
def clearCart : Cart := []

/-- Embedding of `itemsInCart()`:
`Object.values(cart).reduce((a, b) => a + b, 0)`. -/
def itemsInCart (cart : Cart) : Int :=
  (cart.map (fun e => e.2)).foldl (fun a b => a + b) 0

/-- Embedding of `cartTotal()`:
`Object.entries(cart).reduce((sum, [id, qty]) => { const p = products.find(x => x.id === id); return sum + (p ? p.price * qty : 0); }, 0)`. -/
def cartTotal (cart : Cart) (products : List Product) : ℚ :=
  cart.foldl
    (fun sum e =>
      sum +
        (match products.find? (fun x => x.id == e.1) with
         | some p => p.price * (e.2 : ℚ)
         | none => 0))
    0

/-- JS `haystack.includes(needle)`: contiguous-substring test. -/
def strIncludes (hay needle : String) : Bool :=
  decide (needle.data <:+: hay.data)

/-- Embedding of `filteredProducts()`: filter by case-insensitive substring
match of the query against name or description, then by category unless it
is `"All"`, then sort by price for the two price modes (JS `Array.sort` is
stable; `List.mergeSort` is the faithful stable embedding). -/
def filteredProducts (products : List Product) (query category sort : String) :
    List Product :=
  let out := products.filter
    (fun p => strIncludes p.name.toLower query.toLower ||
              strIncludes p.desc.toLower query.toLower)
  let out := if category ≠ "All" then out.filter (fun p => p.category == category) else out
  if sort = "price-asc" then out.mergeSort (fun a b => decide (a.price ≤ b.price))
  else if sort = "price-desc" then out.mergeSort (fun a b => decide (b.price ≤ a.price))
  else out

/-- Embedding of the `orderInfo` state: `{ name: '', email: '', address: '' }`. -/
structure CustomerInfo where
  name : String
  email : String
  address : String
deriving DecidableEq

/-- One element of the order's `items` array:
`{ id, name: p?.name || id, qty, unitPrice: p?.price || 0 }`. -/
structure LineItem where
  id : String
  name : String
  qty : Int
  unitPrice : ℚ
deriving DecidableEq

/-- Embedding of the order object built by `handlePlaceOrder`. -/
structure Order where
  id : String
  date : String
  customer : CustomerInfo
  items : List LineItem
  subtotal : ℚ
  note : String
deriving DecidableEq

/-- The two validation failures of `handlePlaceOrder` (the two `alert` +
early-`return` branches): missing customer fields, and empty cart. -/
inductive ValidationError where
  | emptyFields
  | emptyCart
deriving DecidableEq

/-- The React state touched by checkout: `cart`, `checkoutOpen`, `orderPlaced`. -/
structure ShopState where
  cart : Cart
  checkoutOpen : Bool
  orderPlaced : Option Order
deriving DecidableEq

/-- Embedding of one element of
`Object.entries(cart).map(([id, qty]) => { const p = products.find(x => x.id === id); return { id, name: p?.name || id, qty, unitPrice: p?.price || 0 }; })`.
JS `p?.name || id` falls back to the id when `p` is missing or its name is
the empty string; `p?.price || 0` yields `0` when `p` is missing (and a
stored price `0` is also `0`). -/
def mkLineItem (products : List Product) (e : String × Int) : LineItem :=
  match products.find? (fun x => x.id == e.1) with
  | some p => { id := e.1, name := if p.name = "" then e.1 else p.name,
                qty := e.2, unitPrice := p.price }
  | none => { id := e.1, name := e.1, qty := e.2, unitPrice := 0 }

/-- Embedding of the `order` object literal in `handlePlaceOrder`:
`Date.now()` is passed in as `now : Nat` (JS renders it in decimal, hence
`Nat.repr`), `new Date().toISOString()` as the opaque `nowIso`. -/
def buildOrder (products : List Product) (orderInfo : CustomerInfo)
    (now : Nat) (nowIso : String) (cart : Cart) : Order :=
  { id := "ORD-" ++ Nat.repr now,
    date := nowIso,
    customer := orderInfo,
    items := cart.map (mkLineItem products),
    subtotal := cartTotal cart products,
    note := "This is a simulated checkout — integrate a payment gateway for real orders." }

/-- Embedding of `handlePlaceOrder`: on a validation failure the handler
alerts and returns, so the state is unchanged and the failure branch is
reported; on success it sets `orderPlaced`, clears the cart and closes the
checkout panel.  JS `!orderInfo.name` is true for a string exactly when it
is empty. -/
def handlePlaceOrder (products : List Product) (orderInfo : CustomerInfo)
    (now : Nat) (nowIso : String) (s : ShopState) :
    ShopState × Option ValidationError :=
  if orderInfo.name = "" ∨ orderInfo.email = "" ∨ orderInfo.address = "" then
    (s, some ValidationError.emptyFields)
  else if itemsInCart s.cart = 0 then
    (s, some ValidationError.emptyCart)
  else
    ({ cart := clearCart, checkoutOpen := false,
       orderPlaced := some (buildOrder products orderInfo now nowIso s.cart) },
     none)

/-- Embedding of the `SAMPLE_PRODUCTS` literal. -/
def SAMPLE_PRODUCTS : List Product :=
  [ { id := "cookies-01", name := "Classic Chocolate Chip", price := 4.5,
      category := "Classic",
      desc := "Chewy, buttery cookies packed with semi-sweet chocolate chips.",
      img := "https://images.unsplash.com/photo-1606755962779-0c2a3d4a5c3b?q=80&w=800&auto=format&fit=crop&ixlib=rb-4.0.3&s=1" },
    { id := "cookies-02", name := "Oatmeal Raisin", price := 4.0,
      category := "Healthy",
      desc := "Wholesome oats, plump raisins and a cinnamon hint.",
      img := "https://images.unsplash.com/photo-1565958011703-44f9829ba187?q=80&w=800&auto=format&fit=crop&ixlib=rb-4.0.3&s=2" },
    { id := "cookies-03", name := "Double Chocolate", price := 5.0,
      category := "Decadent",
      desc := "Intense cocoa cookie with extra dark chocolate chunks.",
      img := "https://images.unsplash.com/photo-1544025161-7f53f50f98b0?q=80&w=800&auto=format&fit=crop&ixlib=rb-4.0.3&s=3" },
    { id := "cookies-04", name := "Peanut Butter Swirl", price := 4.75,
      category := "Classic",
      desc := "Creamy peanut butter ribbon in a soft cookie.",
      img := "https://images.unsplash.com/photo-1605475129286-1a29e0a6fb8b?q=80&w=800&auto=format&fit=crop&ixlib=rb-4.0.3&s=4" } ]

end CookieShop

namespace CookieShop

theorem find?_filter_ne (l : Cart) (id k : String) (h : k ≠ id) :
    (l.filter (fun e => !(e.1 == id))).find? (fun e => e.1 == k) =
      l.find? (fun e => e.1 == k) := by
  induction l with
  | nil => rfl
  | cons e t ih =>
    by_cases he : e.1 = id
    · have hk : (e.1 == k) = false := by
        simp only [beq_eq_false_iff_ne, ne_eq]
        intro hh
        exact h (hh ▸ he)
      have hik : (id == k) = false := by
        simp only [beq_eq_false_iff_ne, ne_eq]
        exact fun hh => h hh.symm
      simp [List.filter_cons, he, List.find?_cons, hk, hik, ih]
    · by_cases hk : e.1 = k
      · simp [List.filter_cons, he, List.find?_cons, hk, h]
      · simp [List.filter_cons, he, List.find?_cons, hk, ih]

theorem find?_map_keyUpdate (l : Cart) (id k : String) (v : Int) :
    (l.map (fun e => if e.1 == id then (e.1, v) else e)).find? (fun e => e.1 == k) =
      (l.find? (fun e => e.1 == k)).map (fun e => if e.1 == id then (e.1, v) else e) := by
  induction l with
  | nil => rfl
  | cons e t ih =>
    have hfst : ((if e.1 == id then (e.1, v) else e) : String × Int).1 = e.1 := by
      by_cases he : e.1 = id <;> simp [he]
    rw [List.map_cons, List.find?_cons, List.find?_cons, hfst]
    cases hk : (e.1 == k) with
    | true => simp
    | false =>
      simp only [hk]
      exact ih

theorem get_delKey_self (cart : Cart) (id : String) :
    Cart.get (Cart.delKey cart id) id = none := by
  have h : (Cart.delKey cart id).find? (fun e => e.1 == id) = none := by
    rw [List.find?_eq_none]
    intro x hx
    have hx2 := (List.mem_filter.mp hx).2
    simp only [Bool.not_eq_eq_eq_not, Bool.not_true] at hx2
    simp [hx2]
  simp [Cart.get, h]

theorem get_delKey_other (cart : Cart) (id k : String) (h : k ≠ id) :
    Cart.get (Cart.delKey cart id) k = Cart.get cart k := by
  simp [Cart.get, Cart.delKey, find?_filter_ne cart id k h]

theorem get_setKey_self (cart : Cart) (id : String) (v : Int) :
    Cart.get (Cart.setKey cart id v) id = some v := by
  unfold Cart.setKey
  by_cases hk : cart.any (fun e => e.1 == id)
  · simp only [hk, if_true]
    rw [Cart.get, find?_map_keyUpdate]
    obtain ⟨x, hxl, hx⟩ := List.any_eq_true.mp hk
    have hsome : (cart.find? (fun e => e.1 == id)).isSome := by
      rw [List.find?_isSome]
      exact ⟨x, hxl, hx⟩
    obtain ⟨y, hy⟩ := Option.isSome_iff_exists.mp hsome
    have hyid : y.1 = id := by simpa using List.find?_some hy
    simp [hy, hyid]
  · simp only [hk, if_false]
    have hnone : cart.find? (fun e => e.1 == id) = none := by
      rw [List.find?_eq_none]
      intro x hx
      have := List.any_eq_false.mp (Bool.eq_false_iff.mpr hk) x hx
      simpa using this
    simp [Cart.get, List.find?_append, hnone, List.find?_cons]

theorem get_setKey_other (cart : Cart) (id k : String) (v : Int) (h : k ≠ id) :
    Cart.get (Cart.setKey cart id v) k = Cart.get cart k := by
  unfold Cart.setKey
  by_cases hany : cart.any (fun e => e.1 == id)
  · simp only [hany, if_true]
    rw [Cart.get, find?_map_keyUpdate]
    cases hf : cart.find? (fun e => e.1 == k) with
    | none => simp [Cart.get, hf]
    | some y =>
      have hyk : y.1 = k := by
        have := List.find?_some hf
        simpa using this
      simp [Cart.get, hf, hyk, h]
  · simp only [hany, if_false]
    have hsingle : ([((id, v) : String × Int)].find? (fun e => e.1 == k)) = none := by
      have : (id == k) = false := by
        simp only [beq_eq_false_iff_ne, ne_eq]
        exact fun hh => h hh.symm
      simp [List.find?_cons, this]
    simp [Cart.get, List.find?_append, hsingle]

end CookieShop

namespace CookieShop

/-- C5: `updateQty(cart, id, q)` removes the key `id` entirely when the
quantity `q` is ≤ 0 (including 0 and negative values), and otherwise sets
the entry for `id` to exactly `q` (an absolute set, not an increment),
regardless of whether `id` was previously present. -/
theorem updateQty_removes_or_sets (cart : Cart) (id : String) (q : Int) :
    (q ≤ 0 → Cart.get (updateQty cart id q) id = none) ∧
    (0 < q → Cart.get (updateQty cart id q) id = some q) := by
  constructor
  · intro hq
    simp only [updateQty, if_pos hq]
    exact get_delKey_self cart id
  · intro hq
    have h : ¬ q ≤ 0 := by omega
    simp only [updateQty, if_neg h]
    exact get_setKey_self cart id q

/-- Witness for C5 at concrete inputs: setting quantity 0 or -5 removes the
key, setting 3 on an absent key stores exactly 3. -/
theorem updateQty_removes_or_sets_witness :
    Cart.get (updateQty [("cookies-01", 2)] "cookies-01" 0) "cookies-01" = none ∧
    Cart.get (updateQty [("cookies-01", 2)] "cookies-01" (-5)) "cookies-01" = none ∧
    Cart.get (updateQty [("cookies-01", 2)] "cookies-02" 3) "cookies-02" = some 3 :=
  ⟨(updateQty_removes_or_sets [("cookies-01", 2)] "cookies-01" 0).1 (by decide),
   (updateQty_removes_or_sets [("cookies-01", 2)] "cookies-01" (-5)).1 (by decide),
   (updateQty_removes_or_sets [("cookies-01", 2)] "cookies-02" 3).2 (by decide)⟩

/-- Counterexample to C5? No — counterexample to C6 as stated: a
non-positive quantity is *not* a no-op; `addToCart` on an absent id with
quantity 0 stores an entry with quantity 0 instead of returning the cart
unchanged. -/
theorem addToCart_nonpos_not_noop :
    addToCart ([] : Cart) "cookies-01" 0 = [("cookies-01", 0)] ∧
    addToCart ([] : Cart) "cookies-01" 0 ≠ ([] : Cart) := by
  exact ⟨by decide, by decide⟩

/-- C6 amended: `addToCart(cart, id, q)` stores, under key `id`, the
previous quantity (0 when the id is absent) plus `q`, for *every* integer
`q`: for positive `q` this increments an existing entry or sets an absent
one to `q`, and two adds of 1 to a previously absent id yield quantity 2;
but a non-positive `q` is not a no-op — it likewise stores old + `q`
(e.g. creating an entry with quantity 0 or a negative quantity). -/
theorem addToCart_increments (cart : Cart) (id : String) (q : Int) :
    (Cart.get (addToCart cart id q) id = some ((Cart.get cart id).getD 0 + q)) ∧
    (Cart.get cart id = none → Cart.get (addToCart cart id q) id = some q) ∧
    (∀ v : Int, Cart.get cart id = some v →
      Cart.get (addToCart cart id q) id = some (v + q)) ∧
    (Cart.get cart id = none →
      Cart.get (addToCart (addToCart cart id 1) id 1) id = some 2) := by
  have h1 : Cart.get (addToCart cart id q) id =
      some ((Cart.get cart id).getD 0 + q) := get_setKey_self cart id _
  have h2 : Cart.get (addToCart cart id 1) id =
      some ((Cart.get cart id).getD 0 + 1) := get_setKey_self cart id _
  have h3 : Cart.get (addToCart (addToCart cart id 1) id 1) id =
      some ((Cart.get (addToCart cart id 1) id).getD 0 + 1) :=
    get_setKey_self (addToCart cart id 1) id _
  refine ⟨h1, ?_, ?_, ?_⟩
  · intro h
    rw [h1, h]
    norm_num
  · intro v h
    rw [h1, h]
    norm_num
  · intro h
    rw [h3, h2, h]
    norm_num

/-- Witness for C6 amended at concrete inputs: two adds of 1 to an absent
id give quantity 2, and a single add of 5 to an absent id gives 5. -/
theorem addToCart_increments_witness :
    Cart.get (addToCart (addToCart ([] : Cart) "cookies-01" 1) "cookies-01" 1)
      "cookies-01" = some 2 ∧
    Cart.get (addToCart ([] : Cart) "cookies-02" 5) "cookies-02" = some 5 :=
  ⟨(addToCart_increments ([] : Cart) "cookies-01" 1).2.2.2 rfl,
   (addToCart_increments ([] : Cart) "cookies-02" 5).2.1 rfl⟩

/-- C10: `addToCart` and `updateQty` change at most the entry for the given
product id — for every other key both the presence and the quantity are
exactly as in the input cart. -/
theorem cart_ops_frame (cart : Cart) (id k : String) (q : Int) (h : k ≠ id) :
    Cart.get (addToCart cart id q) k = Cart.get cart k ∧
    Cart.get (updateQty cart id q) k = Cart.get cart k := by
  constructor
  · exact get_setKey_other cart id k _ h
  · by_cases hq : q ≤ 0
    · simp only [updateQty, if_pos hq]
      exact get_delKey_other cart id k h
    · simp only [updateQty, if_neg hq]
      exact get_setKey_other cart id k q h

/-- Witness for C10 at concrete inputs: adding or setting `"cookies-02"`
leaves the `"cookies-01"` entry untouched. -/
theorem cart_ops_frame_witness :
    Cart.get (addToCart [("cookies-01", 2)] "cookies-02" 5) "cookies-01" = some 2 ∧
    Cart.get (updateQty [("cookies-01", 2)] "cookies-02" 5) "cookies-01" = some 2 := by
  have h := cart_ops_frame [("cookies-01", 2)] "cookies-02" "cookies-01" 5 (by decide)
  exact ⟨h.1.trans (by decide), h.2.trans (by decide)⟩

/-- Decidable form of the CartEntry invariant: every stored quantity is
≥ 1 — equivalently, no key is present with a quantity ≤ 0. -/
def cartInvariant (cart : Cart) : Bool :=
  cart.all (fun e => decide (1 ≤ e.2))

/-- Carts reachable from the empty cart by the three UI-exposed cart
mutations: `addToCart` with a positive quantity (the callers only pass the
literals 1 and 3), `updateQty` with an arbitrary quantity, and
`clearCart`. -/
inductive Reachable : Cart → Prop where
  | start : Reachable []
  | add (c : Cart) (id : String) (q : Int) (hq : 0 < q) (h : Reachable c) :
      Reachable (addToCart c id q)
  | set (c : Cart) (id : String) (q : Int) (h : Reachable c) :
      Reachable (updateQty c id q)
  | clear (c : Cart) (h : Reachable c) : Reachable clearCart

theorem setKey_inv (c : Cart) (id : String) (v : Int)
    (hc : ∀ e ∈ c, 1 ≤ e.2) (hv : 1 ≤ v) :
    ∀ e ∈ Cart.setKey c id v, 1 ≤ e.2 := by
  intro e he
  unfold Cart.setKey at he
  by_cases hk : c.any (fun e => e.1 == id)
  · rw [if_pos hk] at he
    obtain ⟨a, ha, hae⟩ := List.mem_map.mp he
    by_cases hai : a.1 = id
    · rw [if_pos (by simpa using hai)] at hae
      rw [← hae]
      exact hv
    · rw [if_neg (by simpa using hai)] at hae
      rw [← hae]
      exact hc a ha
  · rw [if_neg hk] at he
    rcases List.mem_append.mp he with h1 | h1
    · exact hc e h1
    · have : e = (id, v) := by simpa using h1
      rw [this]
      exact hv

theorem getD_get_nonneg (c : Cart) (id : String) (hc : ∀ e ∈ c, 1 ≤ e.2) :
    0 ≤ (Cart.get c id).getD 0 := by
  unfold Cart.get
  cases hf : c.find? (fun e => e.1 == id) with
  | none => simp
  | some y =>
    have hy : y ∈ c := List.mem_of_find?_eq_some hf
    have h1 := hc y hy
    show (0 : Int) ≤ y.2
    omega

theorem addToCart_inv (c : Cart) (id : String) (q : Int)
    (hc : ∀ e ∈ c, 1 ≤ e.2) (hq : 0 < q) :
    ∀ e ∈ addToCart c id q, 1 ≤ e.2 := by
  apply setKey_inv c id _ hc
  have := getD_get_nonneg c id hc
  omega

theorem updateQty_inv (c : Cart) (id : String) (q : Int)
    (hc : ∀ e ∈ c, 1 ≤ e.2) :
    ∀ e ∈ updateQty c id q, 1 ≤ e.2 := by
  unfold updateQty
  by_cases hq : q ≤ 0
  · rw [if_pos hq]
    intro e he
    exact hc e (List.mem_of_mem_filter he)
  · rw [if_neg hq]
    exact setKey_inv c id q hc (by omega)

theorem reachable_inv_aux (c : Cart) (h : Reachable c) : ∀ e ∈ c, 1 ≤ e.2 := by
  induction h with
  | start => intro e he; cases he
  | add c id q hq hr ih => exact addToCart_inv c id q ih hq
  | set c id q hr ih => exact updateQty_inv c id q ih
  | clear c hr _ => intro e he; cases he

/-- C9: starting from the empty cart, every cart reachable by any sequence
of `addToCart` (positive quantity), `updateQty` (any quantity) and
`clearCart` satisfies the CartEntry invariant: every stored quantity is
≥ 1, and no key is stored with a zero or negative quantity. -/
theorem reachable_cartInvariant (c : Cart) (h : Reachable c) :
    cartInvariant c = true := by
  have hx := reachable_inv_aux c h
  simp only [cartInvariant, List.all_eq_true, decide_eq_true_eq]
  exact hx

/-- Witness for C9: a concrete reachable cart (add 2, then set to 5, after
an interfering add that gets removed) satisfies the invariant. -/
theorem reachable_cartInvariant_witness :
    cartInvariant
      (updateQty (addToCart clearCart "cookies-01" 2) "cookies-02" 5) = true :=
  reachable_cartInvariant _
    (Reachable.set _ "cookies-02" 5
      (Reachable.add _ "cookies-01" 2 (by decide) Reachable.start))

end CookieShop

namespace CookieShop

theorem foldl_add_extract (l : Cart) (g : String × Int → ℚ) (a : ℚ) :
    l.foldl (fun s e => s + g e) a = a + (l.map g).sum := by
  induction l generalizing a with
  | nil => simp
  | cons e t ih => simp [ih, add_assoc]

theorem foldl_add_int (l : List Int) (a : Int) :
    l.foldl (fun x y => x + y) a = a + l.sum := by
  induction l generalizing a with
  | nil => simp
  | cons e t ih => simp [ih, add_assoc]

theorem int_sum_nonneg (l : List Int) (h : ∀ x ∈ l, 1 ≤ x) : 0 ≤ l.sum := by
  induction l with
  | nil => simp
  | cons e t ih =>
    have he := h e (List.mem_cons_self e t)
    have ht := ih (fun x hx => h x (List.mem_cons_of_mem e hx))
    simp only [List.sum_cons]
    omega

theorem int_sum_pos (l : List Int) (h : ∀ x ∈ l, 1 ≤ x) (hne : l ≠ []) :
    0 < l.sum := by
  cases l with
  | nil => exact absurd rfl hne
  | cons e t =>
    have he := h e (List.mem_cons_self e t)
    have ht := int_sum_nonneg t (fun x hx => h x (List.mem_cons_of_mem e hx))
    simp only [List.sum_cons]
    omega

theorem itemsInCart_pos (cart : Cart) (hwf : ∀ e ∈ cart, 1 ≤ e.2)
    (hne : cart ≠ []) : 0 < itemsInCart cart := by
  unfold itemsInCart
  rw [foldl_add_int]
  have h1 : ∀ x ∈ cart.map (fun e => e.2), 1 ≤ x := by
    intro x hx
    obtain ⟨e, he, rfl⟩ := List.mem_map.mp hx
    exact hwf e he
  have h2 : cart.map (fun e => e.2) ≠ [] := by
    simpa using hne
  have := int_sum_pos (cart.map (fun e => e.2)) h1 h2
  omega

theorem cartTotal_eq_sum (cart : Cart) (products : List Product) :
    cartTotal cart products =
      (cart.map (fun e =>
        (e.2 : ℚ) * (match products.find? (fun x => x.id == e.1) with
                     | some p => p.price
                     | none => 0))).sum := by
  unfold cartTotal
  rw [foldl_add_extract]
  rw [zero_add]
  congr 1
  apply List.map_congr_left
  intro e _
  cases hf : products.find? (fun x => x.id == e.1) with
  | some p => simp [mul_comm]
  | none => simp

/-- C3: `cartTotal` equals the sum over cart entries of quantity times the
matching product price, contributing 0 for every entry whose product id
does not resolve in the catalog (so a cart referencing a removed product
cannot make it fail); and on data-model-conforming inputs (quantities ≥ 1,
prices ≥ 0) the result is never negative. -/
theorem cartTotal_spec (cart : Cart) (products : List Product) :
    cartTotal cart products =
      (cart.map (fun e =>
        (e.2 : ℚ) * (match products.find? (fun x => x.id == e.1) with
                     | some p => p.price
                     | none => 0))).sum ∧
    ((∀ e ∈ cart, 1 ≤ e.2) → (∀ p ∈ products, 0 ≤ p.price) →
      0 ≤ cartTotal cart products) := by
  refine ⟨cartTotal_eq_sum cart products, ?_⟩
  intro hq hp
  rw [cartTotal_eq_sum]
  apply List.sum_nonneg
  intro x hx
  obtain ⟨e, he, rfl⟩ := List.mem_map.mp hx
  have h1 : (1 : ℚ) ≤ (e.2 : ℚ) := by exact_mod_cast hq e he
  cases hf : products.find? (fun x => x.id == e.1) with
  | some p =>
    have hmem : p ∈ products := List.mem_of_find?_eq_some hf
    have := hp p hmem
    positivity
  | none => simp

/-- Witness for C3: a cart holding two resolved entries and one entry whose
id does not resolve totals 2 × 4.5 + 3 × 4 + 7 × 0 = 21, which is ≥ 0. -/
theorem cartTotal_spec_witness :
    cartTotal [("cookies-01", 2), ("cookies-02", 3), ("removed-id", 7)]
      SAMPLE_PRODUCTS = 21 ∧
    0 ≤ cartTotal [("cookies-01", 2), ("cookies-02", 3), ("removed-id", 7)]
      SAMPLE_PRODUCTS :=
  ⟨by with_unfolding_all decide,
   (cartTotal_spec [("cookies-01", 2), ("cookies-02", 3), ("removed-id", 7)]
      SAMPLE_PRODUCTS).2 (by decide) (by with_unfolding_all decide)⟩

end CookieShop

namespace CookieShop

/-- C1: the checkout submission refuses invalid input.  If `name`, `email`
or `address` is the empty string the submission fails with the
empty-fields `ValidationError`; if the fields are filled but the cart item
count is 0 it fails with the empty-cart `ValidationError`; in both failure
cases the whole state (cart mapping, checkout modal, placed order) is
returned unchanged and no `Order` is produced.  With all three fields
non-empty and a non-empty (data-model-conforming) cart the submission
succeeds and produces an `Order`. -/
theorem placeOrder_validation (products : List Product) (orderInfo : CustomerInfo)
    (now : Nat) (nowIso : String) (s : ShopState) :
    ((orderInfo.name = "" ∨ orderInfo.email = "" ∨ orderInfo.address = "") →
      handlePlaceOrder products orderInfo now nowIso s =
        (s, some ValidationError.emptyFields)) ∧
    (orderInfo.name ≠ "" → orderInfo.email ≠ "" → orderInfo.address ≠ "" →
      itemsInCart s.cart = 0 →
      handlePlaceOrder products orderInfo now nowIso s =
        (s, some ValidationError.emptyCart)) ∧
    (orderInfo.name ≠ "" → orderInfo.email ≠ "" → orderInfo.address ≠ "" →
      s.cart ≠ [] → (∀ e ∈ s.cart, 1 ≤ e.2) →
      handlePlaceOrder products orderInfo now nowIso s =
        ({ cart := [], checkoutOpen := false,
           orderPlaced := some (buildOrder products orderInfo now nowIso s.cart) },
         none)) := by
  refine ⟨?_, ?_, ?_⟩
  · intro h
    simp only [handlePlaceOrder, if_pos h]
  · intro h1 h2 h3 hc
    have hfields : ¬ (orderInfo.name = "" ∨ orderInfo.email = "" ∨
        orderInfo.address = "") := by
      push_neg
      exact ⟨h1, h2, h3⟩
    simp only [handlePlaceOrder, if_neg hfields, if_pos hc]
  · intro h1 h2 h3 hne hwf
    have hfields : ¬ (orderInfo.name = "" ∨ orderInfo.email = "" ∨
        orderInfo.address = "") := by
      push_neg
      exact ⟨h1, h2, h3⟩
    have hpos := itemsInCart_pos s.cart hwf hne
    have hc : ¬ itemsInCart s.cart = 0 := by omega
    simp only [handlePlaceOrder, if_neg hfields, if_neg hc, clearCart]

/-- Witness for C1 at concrete inputs: an empty name is refused with the
empty-fields error and the state is unchanged; an empty cart (with filled
fields) is refused with the empty-cart error; a filled form over the cart
`{cookies-01: 2}` succeeds. -/
theorem placeOrder_validation_witness :
    handlePlaceOrder SAMPLE_PRODUCTS ⟨"", "j@x.com", "1 St"⟩ 5 "iso"
        ⟨[("cookies-01", 2)], true, none⟩ =
      (⟨[("cookies-01", 2)], true, none⟩, some ValidationError.emptyFields) ∧
    handlePlaceOrder SAMPLE_PRODUCTS ⟨"Jo", "j@x.com", "1 St"⟩ 5 "iso"
        ⟨[], true, none⟩ =
      (⟨[], true, none⟩, some ValidationError.emptyCart) ∧
    handlePlaceOrder SAMPLE_PRODUCTS ⟨"Jo", "j@x.com", "1 St"⟩ 5 "iso"
        ⟨[("cookies-01", 2)], true, none⟩ =
      ({ cart := [], checkoutOpen := false,
         orderPlaced := some (buildOrder SAMPLE_PRODUCTS ⟨"Jo", "j@x.com", "1 St"⟩
           5 "iso" [("cookies-01", 2)]) }, none) :=
  ⟨(placeOrder_validation SAMPLE_PRODUCTS ⟨"", "j@x.com", "1 St"⟩ 5 "iso"
      ⟨[("cookies-01", 2)], true, none⟩).1 (Or.inl rfl),
   (placeOrder_validation SAMPLE_PRODUCTS ⟨"Jo", "j@x.com", "1 St"⟩ 5 "iso"
      ⟨[], true, none⟩).2.1 (by decide) (by decide) (by decide) rfl,
   (placeOrder_validation SAMPLE_PRODUCTS ⟨"Jo", "j@x.com", "1 St"⟩ 5 "iso"
      ⟨[("cookies-01", 2)], true, none⟩).2.2 (by decide) (by decide) (by decide)
      (by decide) (by decide)⟩

theorem lineItems_sum_eq_cartTotal (cart : Cart) (products : List Product) :
    ((cart.map (mkLineItem products)).map
      (fun it => (it.qty : ℚ) * it.unitPrice)).sum = cartTotal cart products := by
  rw [cartTotal_eq_sum, List.map_map]
  congr 1
  apply List.map_congr_left
  intro e _
  simp only [Function.comp_apply]
  unfold mkLineItem
  cases hf : products.find? (fun x => x.id == e.1) with
  | some p => simp
  | none => simp

/-- C2: on a successful checkout submission (non-empty data-model cart,
complete customer info) the produced Order stores as `subtotal` exactly the
sum of quantity × unitPrice over its own line items, and that value equals
`cartTotal` of the cart and catalog as they were just before the call. -/
theorem order_subtotal_correct (products : List Product) (orderInfo : CustomerInfo)
    (now : Nat) (nowIso : String) (s : ShopState)
    (h1 : orderInfo.name ≠ "") (h2 : orderInfo.email ≠ "")
    (h3 : orderInfo.address ≠ "") (hne : s.cart ≠ [])
    (hwf : ∀ e ∈ s.cart, 1 ≤ e.2) :
    ((handlePlaceOrder products orderInfo now nowIso s).1.orderPlaced =
      some (buildOrder products orderInfo now nowIso s.cart) ∧
     (handlePlaceOrder products orderInfo now nowIso s).2 = none) ∧
    (buildOrder products orderInfo now nowIso s.cart).subtotal =
      ((buildOrder products orderInfo now nowIso s.cart).items.map
        (fun it => (it.qty : ℚ) * it.unitPrice)).sum ∧
    (buildOrder products orderInfo now nowIso s.cart).subtotal =
      cartTotal s.cart products := by
  have hfields : ¬ (orderInfo.name = "" ∨ orderInfo.email = "" ∨
      orderInfo.address = "") := by
    push_neg
    exact ⟨h1, h2, h3⟩
  have hpos := itemsInCart_pos s.cart hwf hne
  have hc : ¬ itemsInCart s.cart = 0 := by omega
  refine ⟨?_, ?_, rfl⟩
  · simp [handlePlaceOrder, if_neg hfields, if_neg hc]
  · show cartTotal s.cart products =
      ((s.cart.map (mkLineItem products)).map
        (fun it => (it.qty : ℚ) * it.unitPrice)).sum
    rw [lineItems_sum_eq_cartTotal]

/-- Witness for C2 at a concrete input: the order built over the cart
`{cookies-01: 2}` has subtotal `cartTotal` = 9. -/
theorem order_subtotal_correct_witness :
    (buildOrder SAMPLE_PRODUCTS ⟨"Jo", "j@x.com", "1 St"⟩ 5 "iso"
      [("cookies-01", 2)]).subtotal = cartTotal [("cookies-01", 2)] SAMPLE_PRODUCTS ∧
    cartTotal [("cookies-01", 2)] SAMPLE_PRODUCTS = 9 :=
  ⟨(order_subtotal_correct SAMPLE_PRODUCTS ⟨"Jo", "j@x.com", "1 St"⟩ 5 "iso"
      ⟨[("cookies-01", 2)], true, none⟩ (by decide) (by decide) (by decide)
      (by decide) (by decide)).2.2,
   by with_unfolding_all decide⟩

end CookieShop

namespace CookieShop

/-- Specification-side match predicate for the Query Engine, following the
spec's words: case-insensitive substring match of the search text against
name OR description (an empty text matches everything), and the category
restriction unless the category is the sentinel "All". -/
def specMatches (searchText category : String) (p : Product) : Bool :=
  (strIncludes p.name.toLower searchText.toLower ||
   strIncludes p.desc.toLower searchText.toLower) &&
  (category == "All" || p.category == category)

theorem pre_filter_eq (products : List Product) (q c : String) :
    (if c ≠ "All" then
      (products.filter (fun p => strIncludes p.name.toLower q.toLower ||
        strIncludes p.desc.toLower q.toLower)).filter (fun p => p.category == c)
     else
      products.filter (fun p => strIncludes p.name.toLower q.toLower ||
        strIncludes p.desc.toLower q.toLower)) =
    products.filter (specMatches q c) := by
  by_cases hc : c = "All"
  · rw [if_neg (by simp [hc])]
    apply List.filter_congr
    intro p _
    simp [specMatches, hc]
  · rw [if_pos hc, List.filter_filter]
    apply List.filter_congr
    intro p _
    have : (c == "All") = false := by simpa using hc
    simp [specMatches, this, Bool.and_comm]

theorem filteredProducts_featured (products : List Product) (q c : String) :
    filteredProducts products q c "featured" = products.filter (specMatches q c) := by
  simp only [filteredProducts]
  rw [if_neg (by decide : ¬ ("featured" = "price-asc")),
      if_neg (by decide : ¬ ("featured" = "price-desc"))]
  exact pre_filter_eq products q c

theorem filteredProducts_asc (products : List Product) (q c : String) :
    filteredProducts products q c "price-asc" =
      (products.filter (specMatches q c)).mergeSort
        (fun a b => decide (a.price ≤ b.price)) := by
  simp only [filteredProducts, if_true, if_false]
  rw [pre_filter_eq products q c]

theorem filteredProducts_desc (products : List Product) (q c : String) :
    filteredProducts products q c "price-desc" =
      (products.filter (specMatches q c)).mergeSort
        (fun a b => decide (b.price ≤ a.price)) := by
  simp only [filteredProducts, if_true, if_false]
  rw [pre_filter_eq products q c]
  rw [if_neg (by decide : ¬ ("price-desc" = "price-asc"))]

theorem priceLe_trans (a b c : Product) :
    (fun a b : Product => decide (a.price ≤ b.price)) a b →
    (fun a b : Product => decide (a.price ≤ b.price)) b c →
    (fun a b : Product => decide (a.price ≤ b.price)) a c := by
  intro hab hbc
  exact decide_eq_true (le_trans (of_decide_eq_true hab) (of_decide_eq_true hbc))

theorem priceLe_total (a b : Product) :
    ((fun a b : Product => decide (a.price ≤ b.price)) a b ||
     (fun a b : Product => decide (a.price ≤ b.price)) b a) = true := by
  simp only [Bool.or_eq_true, decide_eq_true_eq]
  exact le_total a.price b.price

theorem priceGe_trans (a b c : Product) :
    (fun a b : Product => decide (b.price ≤ a.price)) a b →
    (fun a b : Product => decide (b.price ≤ a.price)) b c →
    (fun a b : Product => decide (b.price ≤ a.price)) a c := by
  intro hab hbc
  exact decide_eq_true (le_trans (of_decide_eq_true hbc) (of_decide_eq_true hab))

theorem priceGe_total (a b : Product) :
    ((fun a b : Product => decide (b.price ≤ a.price)) a b ||
     (fun a b : Product => decide (b.price ≤ a.price)) b a) = true := by
  simp only [Bool.or_eq_true, decide_eq_true_eq]
  exact le_total b.price a.price

theorem mergeSort_filter_const (l : List Product) (le : Product → Product → Bool)
    (htrans : ∀ a b c : Product, le a b → le b c → le a c)
    (htotal : ∀ a b : Product, (le a b || le b a) = true)
    (pred : Product → Bool)
    (hconst : ∀ a b : Product, pred a = true → pred b = true → le a b = true) :
    (l.mergeSort le).filter pred = l.filter pred := by
  have hpw : (l.filter pred).Pairwise (fun a b => le a b = true) :=
    List.pairwise_of_forall_mem_list
      (fun a ha b hb => hconst a b (List.of_mem_filter ha) (List.of_mem_filter hb))
  have h1 : List.Sublist (l.filter pred) (l.mergeSort le) :=
    List.sublist_mergeSort htrans htotal hpw (List.filter_sublist l)
  have h2 : (l.filter pred).filter pred = l.filter pred := by
    rw [List.filter_filter]
    apply List.filter_congr
    intro p _
    simp [Bool.and_self]
  have h3 : List.Sublist (l.filter pred) ((l.mergeSort le).filter pred) := by
    rw [← h2]
    exact h1.filter pred
  have h4 : List.Perm ((l.mergeSort le).filter pred) (l.filter pred) :=
    (List.mergeSort_perm l le).filter pred
  exact (h3.eq_of_length h4.length_eq.symm).symm

/-- C4: `filteredProducts` returns exactly the catalog products whose name
or description contains the search text as a case-insensitive substring
(every product when the text is empty), restricted to the selected
category unless it is the sentinel "All"; the result keeps the original
catalog order for "featured", is ordered ascending by price for
"price-asc" and descending for "price-desc", and under either price mode
products of equal price keep their original catalog relative order (the
sort is stable: filtering the output to any fixed price yields exactly the
same sequence as filtering the unsorted match list). -/
theorem visibleProducts_spec (products : List Product) (q c : String) :
    (filteredProducts products q c "featured" = products.filter (specMatches q c)) ∧
    List.Perm (filteredProducts products q c "price-asc")
      (products.filter (specMatches q c)) ∧
    List.Perm (filteredProducts products q c "price-desc")
      (products.filter (specMatches q c)) ∧
    (filteredProducts products q c "price-asc").Pairwise
      (fun a b => a.price ≤ b.price) ∧
    (filteredProducts products q c "price-desc").Pairwise
      (fun a b => b.price ≤ a.price) ∧
    (∀ r : ℚ, (filteredProducts products q c "price-asc").filter
        (fun p => decide (p.price = r)) =
      (products.filter (specMatches q c)).filter (fun p => decide (p.price = r))) ∧
    (∀ r : ℚ, (filteredProducts products q c "price-desc").filter
        (fun p => decide (p.price = r)) =
      (products.filter (specMatches q c)).filter (fun p => decide (p.price = r))) ∧
    (filteredProducts products "" "All" "featured" = products) := by
  refine ⟨filteredProducts_featured products q c, ?_, ?_, ?_, ?_, ?_, ?_, ?_⟩
  · rw [filteredProducts_asc]
    exact List.mergeSort_perm _ _
  · rw [filteredProducts_desc]
    exact List.mergeSort_perm _ _
  · rw [filteredProducts_asc]
    have := List.sorted_mergeSort priceLe_trans priceLe_total
      (products.filter (specMatches q c))
    exact this.imp (fun h => of_decide_eq_true h)
  · rw [filteredProducts_desc]
    have := List.sorted_mergeSort priceGe_trans priceGe_total
      (products.filter (specMatches q c))
    exact this.imp (fun h => of_decide_eq_true h)
  · intro r
    rw [filteredProducts_asc]
    apply mergeSort_filter_const _ _ priceLe_trans priceLe_total
    intro a b ha hb
    have ha' := of_decide_eq_true ha
    have hb' := of_decide_eq_true hb
    exact decide_eq_true (by rw [ha', hb'])
  · intro r
    rw [filteredProducts_desc]
    apply mergeSort_filter_const _ _ priceGe_trans priceGe_total
    intro a b ha hb
    have ha' := of_decide_eq_true ha
    have hb' := of_decide_eq_true hb
    exact decide_eq_true (by rw [ha', hb'])
  · rw [filteredProducts_featured]
    rw [List.filter_eq_self]
    intro p _
    have htl : ("" : String).toLower = "" := by with_unfolding_all decide
    simp [specMatches, strIncludes, htl]

end CookieShop

namespace CookieShop

theorem digitChar_inj_lt10 (a b : Nat) (ha : a < 10) (hb : b < 10)
    (h : Nat.digitChar a = Nat.digitChar b) : a = b := by
  interval_cases a <;> interval_cases b <;> revert h <;> decide

theorem toDigitsCore_eq_digits (fuel : Nat) : ∀ (n : Nat) (acc : List Char),
    n < fuel → n ≠ 0 →
    Nat.toDigitsCore 10 fuel n acc =
      ((Nat.digits 10 n).map Nat.digitChar).reverse ++ acc := by
  induction fuel with
  | zero => intro n acc hfuel _; omega
  | succ fuel ih =>
    intro n acc hfuel hn
    simp only [Nat.toDigitsCore]
    by_cases hdiv : n / 10 = 0
    · rw [if_pos hdiv]
      have h10 : n < 10 := by omega
      have hd : Nat.digits 10 n = [n] := by
        rw [Nat.digits_def' (by norm_num : (1 : ℕ) < 10) (Nat.pos_of_ne_zero hn)]
        rw [Nat.mod_eq_of_lt h10, hdiv]
        simp
      rw [hd]
      simp [Nat.mod_eq_of_lt h10]
    · rw [if_neg hdiv]
      have hlt : n / 10 < fuel := by
        have h1 : n / 10 < n := Nat.div_lt_self (Nat.pos_of_ne_zero hn) (by norm_num)
        omega
      rw [ih (n / 10) (Nat.digitChar (n % 10) :: acc) hlt hdiv]
      rw [Nat.digits_def' (by norm_num : (1 : ℕ) < 10) (Nat.pos_of_ne_zero hn)]
      simp

theorem toDigits_eq_digits (n : Nat) (hn : n ≠ 0) :
    Nat.toDigits 10 n = ((Nat.digits 10 n).map Nat.digitChar).reverse := by
  unfold Nat.toDigits
  rw [toDigitsCore_eq_digits (n + 1) n [] (by omega) hn]
  simp

theorem toDigits_ten_zero : Nat.toDigits 10 0 = ['0'] := by decide

theorem map_digitChar_inj : ∀ (l1 l2 : List Nat), (∀ x ∈ l1, x < 10) →
    (∀ x ∈ l2, x < 10) → l1.map Nat.digitChar = l2.map Nat.digitChar → l1 = l2 := by
  intro l1
  induction l1 with
  | nil =>
    intro l2 _ _ h
    cases l2 with
    | nil => rfl
    | cons b t => simp at h
  | cons a t1 ih =>
    intro l2 h1 h2 h
    cases l2 with
    | nil => simp at h
    | cons b t2 =>
      simp only [List.map_cons, List.cons.injEq] at h
      have hab : a = b :=
        digitChar_inj_lt10 a b (h1 a (List.mem_cons_self a t1))
          (h2 b (List.mem_cons_self b t2)) h.1
      have ht : t1 = t2 :=
        ih t2 (fun x hx => h1 x (List.mem_cons_of_mem a hx))
          (fun x hx => h2 x (List.mem_cons_of_mem b hx)) h.2
      rw [hab, ht]

theorem digits_ten_lt (n : Nat) : ∀ d ∈ Nat.digits 10 n, d < 10 :=
  fun _ hd => Nat.digits_lt_base (by norm_num) hd

theorem nat_repr_inj (m n : Nat) (h : Nat.repr m = Nat.repr n) : m = n := by
  have hlist : Nat.toDigits 10 m = Nat.toDigits 10 n := by
    have hd := congrArg String.data h
    simpa [Nat.repr, List.asString] using hd
  by_cases hm : m = 0 <;> by_cases hn : n = 0
  · omega
  · exfalso
    rw [hm, toDigits_ten_zero, toDigits_eq_digits n hn] at hlist
    have hrev : (Nat.digits 10 n).map Nat.digitChar = ['0'] := by
      have := congrArg List.reverse hlist
      simpa using this.symm
    have hdig : Nat.digits 10 n = [0] := by
      have h0 : ([0] : List Nat).map Nat.digitChar = ['0'] := by decide
      exact map_digitChar_inj (Nat.digits 10 n) [0] (digits_ten_lt n)
        (by intro x hx; simp at hx; omega) (hrev.trans h0.symm)
    have := Nat.ofDigits_digits 10 n
    rw [hdig] at this
    simp [Nat.ofDigits] at this
    omega
  · exfalso
    rw [hn, toDigits_ten_zero, toDigits_eq_digits m hm] at hlist
    have hrev : (Nat.digits 10 m).map Nat.digitChar = ['0'] := by
      have := congrArg List.reverse hlist
      simpa using this
    have hdig : Nat.digits 10 m = [0] := by
      have h0 : ([0] : List Nat).map Nat.digitChar = ['0'] := by decide
      exact map_digitChar_inj (Nat.digits 10 m) [0] (digits_ten_lt m)
        (by intro x hx; simp at hx; omega) (hrev.trans h0.symm)
    have := Nat.ofDigits_digits 10 m
    rw [hdig] at this
    simp [Nat.ofDigits] at this
    omega
  · rw [toDigits_eq_digits m hm, toDigits_eq_digits n hn] at hlist
    have hmap : (Nat.digits 10 m).map Nat.digitChar =
        (Nat.digits 10 n).map Nat.digitChar := by
      have := congrArg List.reverse hlist
      simpa using this
    have hdig : Nat.digits 10 m = Nat.digits 10 n :=
      map_digitChar_inj _ _ (digits_ten_lt m) (digits_ten_lt n) hmap
    have h1 := Nat.ofDigits_digits 10 m
    have h2 := Nat.ofDigits_digits 10 n
    rw [← h1, ← h2, hdig]

/-- C8 counterexample: two different successful checkout submissions (with
different customers and carts) that observe the same `Date.now()` reading
produce two distinct Orders with the *same* id `ORD-100`, so order-id
uniqueness across a session does not hold unconditionally. -/
theorem order_id_collision :
    (handlePlaceOrder SAMPLE_PRODUCTS ⟨"Jo", "j@x.com", "1 St"⟩ 100 "t1"
        ⟨[("cookies-01", 1)], true, none⟩).2 = none ∧
    (handlePlaceOrder SAMPLE_PRODUCTS ⟨"Bo", "b@x.com", "2 St"⟩ 100 "t1"
        ⟨[("cookies-02", 3)], true, none⟩).2 = none ∧
    buildOrder SAMPLE_PRODUCTS ⟨"Jo", "j@x.com", "1 St"⟩ 100 "t1"
        [("cookies-01", 1)] ≠
      buildOrder SAMPLE_PRODUCTS ⟨"Bo", "b@x.com", "2 St"⟩ 100 "t1"
        [("cookies-02", 3)] ∧
    (buildOrder SAMPLE_PRODUCTS ⟨"Jo", "j@x.com", "1 St"⟩ 100 "t1"
        [("cookies-01", 1)]).id =
      (buildOrder SAMPLE_PRODUCTS ⟨"Bo", "b@x.com", "2 St"⟩ 100 "t1"
        [("cookies-02", 3)]).id := by
  refine ⟨rfl, rfl, ?_, rfl⟩
  intro h
  have := congrArg Order.customer h
  simp [buildOrder] at this

/-- C8 amended: the generated order id is the fixed prefix `ORD-` followed
by the decimal rendering of the `Date.now()` reading, so any two successful
submissions that observe *distinct* clock readings produce Orders with
distinct ids; the claim holds across a session exactly when the
millisecond clock value differs between submissions (which the code does
not itself enforce). -/
theorem order_id_distinct_of_now_distinct
    (products1 products2 : List Product) (info1 info2 : CustomerInfo)
    (now1 now2 : Nat) (iso1 iso2 : String) (c1 c2 : Cart)
    (h : now1 ≠ now2) :
    (buildOrder products1 info1 now1 iso1 c1).id ≠
      (buildOrder products2 info2 now2 iso2 c2).id := by
  intro he
  apply h
  apply nat_repr_inj
  have hd : ("ORD-" ++ Nat.repr now1).data = ("ORD-" ++ Nat.repr now2).data :=
    congrArg String.data he
  rw [String.data_append, String.data_append] at hd
  exact String.ext (List.append_cancel_left hd)

/-- Witness for C8 amended: submissions at clock readings 100 and 101 get
the distinct ids `ORD-100` and `ORD-101`. -/
theorem order_id_distinct_witness :
    (buildOrder SAMPLE_PRODUCTS ⟨"Jo", "j@x.com", "1 St"⟩ 100 "t1"
        [("cookies-01", 1)]).id ≠
      (buildOrder SAMPLE_PRODUCTS ⟨"Jo", "j@x.com", "1 St"⟩ 101 "t2"
        [("cookies-01", 1)]).id :=
  order_id_distinct_of_now_distinct SAMPLE_PRODUCTS SAMPLE_PRODUCTS
    ⟨"Jo", "j@x.com", "1 St"⟩ ⟨"Jo", "j@x.com", "1 St"⟩ 100 101 "t1" "t2"
    [("cookies-01", 1)] [("cookies-01", 1)] (by decide)

end CookieShop

namespace CookieShop

/-- JSON values: the possible results of the host `JSON.parse`. -/
inductive Json where
  | null
  | bool (b : Bool)
  | num (q : ℚ)
  | str (s : String)
  | arr (elems : List Json)
  | obj (fields : List (String × Json))

/-- Test whether a JSON value is an object — the only shape that is a
productId→quantity mapping candidate. -/
def Json.isObj : Json → Bool
  | .obj _ => true
  | _ => false

/-- JSON insignificant whitespace. -/
def jsonWs (c : Char) : Bool :=
  c == ' ' || c == '\t' || c == '\n' || c == '\r'

/-- Skip insignificant whitespace. -/
def skipWs (cs : List Char) : List Char := cs.dropWhile jsonWs

def isDigitChar (c : Char) : Bool := '0' ≤ c && c ≤ '9'

def digitVal (c : Char) : Nat := c.toNat - 48

def digitsToNat (ds : List Char) : Nat :=
  ds.foldl (fun a c => a * 10 + digitVal c) 0

def hexVal (c : Char) : Option Nat :=
  if '0' ≤ c && c ≤ '9' then some (c.toNat - 48)
  else if 'a' ≤ c && c ≤ 'f' then some (c.toNat - 87)
  else if 'A' ≤ c && c ≤ 'F' then some (c.toNat - 55)
  else none

/-- Body of a JSON string after its opening quote: literal characters and
escapes up to the closing quote.  Returns the decoded characters and the
remaining input. -/
def parseStringChars : List Char → Option (List Char × List Char)
  | [] => none
  | '"' :: r => some ([], r)
  | '\\' :: 'u' :: h1 :: h2 :: h3 :: h4 :: r =>
    match hexVal h1, hexVal h2, hexVal h3, hexVal h4 with
    | some v1, some v2, some v3, some v4 =>
      (parseStringChars r).map
        (fun p => (Char.ofNat (((v1 * 16 + v2) * 16 + v3) * 16 + v4) :: p.1, p.2))
    | _, _, _, _ => none
  | '\\' :: e :: r =>
    let esc : Option Char :=
      if e == '"' then some '"'
      else if e == '\\' then some '\\'
      else if e == '/' then some '/'
      else if e == 'b' then some (Char.ofNat 8)
      else if e == 'f' then some (Char.ofNat 12)
      else if e == 'n' then some (Char.ofNat 10)
      else if e == 'r' then some (Char.ofNat 13)
      else if e == 't' then some (Char.ofNat 9)
      else none
    match esc with
    | none => none
    | some c => (parseStringChars r).map (fun p => (c :: p.1, p.2))
  | c :: r =>
    if c.toNat < 32 then none
    else (parseStringChars r).map (fun p => (c :: p.1, p.2))

/-- Fraction part of a JSON number: `.` followed by at least one digit, or
nothing. -/
def parseFrac (cs : List Char) : Option (List Char × List Char) :=
  match cs with
  | '.' :: r =>
    let ds := r.takeWhile isDigitChar
    if ds.isEmpty then none else some (ds, r.dropWhile isDigitChar)
  | _ => some ([], cs)

/-- Exponent part of a JSON number: `e`/`E`, optional sign, at least one
digit, or nothing. -/
def parseExp (cs : List Char) : Option (Int × List Char) :=
  match cs with
  | c :: r =>
    if c == 'e' || c == 'E' then
      let signAndRest : Int × List Char :=
        match r with
        | '+' :: r2 => (1, r2)
        | '-' :: r2 => (-1, r2)
        | _ => (1, r)
      let ds := signAndRest.2.takeWhile isDigitChar
      if ds.isEmpty then none
      else some (signAndRest.1 * (digitsToNat ds : Int),
        signAndRest.2.dropWhile isDigitChar)
    else some (0, cs)
  | [] => some (0, [])

/-- JSON number: optional minus, integer part without leading zeros,
optional fraction and exponent.  The value is kept as an exact rational
(the host rounds to a binary double; the distinction is irrelevant here). -/
def parseNumber (cs : List Char) : Option (ℚ × List Char) :=
  let signAndRest : Bool × List Char :=
    match cs with
    | '-' :: r => (true, r)
    | _ => (false, cs)
  let cs1 := signAndRest.2
  let intDigits := cs1.takeWhile isDigitChar
  if intDigits.isEmpty then none
  else if intDigits.length > 1 && (intDigits.headD '0' == '0') then none
  else
    let cs2 := cs1.dropWhile isDigitChar
    match parseFrac cs2 with
    | none => none
    | some (fracDigits, cs3) =>
      match parseExp cs3 with
      | none => none
      | some (exp, cs4) =>
        let mantissa : ℚ := (digitsToNat (intDigits ++ fracDigits) : ℚ) /
          (10 : ℚ) ^ fracDigits.length
        let value : ℚ := mantissa * (10 : ℚ) ^ exp
        some (if signAndRest.1 then -value else value, cs4)

/-- Members of a JSON object after the opening brace (non-empty case),
parameterized by the value parser of the enclosing recursion level. -/
def parseMembers (pv : List Char → Option (Json × List Char)) :
    Nat → List Char → Option (List (String × Json) × List Char)
  | 0, _ => none
  | fuel + 1, cs =>
    match cs with
    | '"' :: r =>
      match parseStringChars r with
      | none => none
      | some (keyChars, r1) =>
        match skipWs r1 with
        | ':' :: r2 =>
          match pv (skipWs r2) with
          | none => none
          | some (v, r3) =>
            match skipWs r3 with
            | ',' :: r4 =>
              match parseMembers pv fuel (skipWs r4) with
              | none => none
              | some (rest, r5) => some ((keyChars.asString, v) :: rest, r5)
            | '}' :: r4 => some ([(keyChars.asString, v)], r4)
            | _ => none
        | _ => none
    | _ => none

/-- Elements of a JSON array after the opening bracket (non-empty case),
parameterized by the value parser of the enclosing recursion level. -/
def parseElements (pv : List Char → Option (Json × List Char)) :
    Nat → List Char → Option (List Json × List Char)
  | 0, _ => none
  | fuel + 1, cs =>
    match pv cs with
    | none => none
    | some (v, r) =>
      match skipWs r with
      | ',' :: r1 =>
        match parseElements pv fuel (skipWs r1) with
        | none => none
        | some (rest, r2) => some (v :: rest, r2)
      | ']' :: r1 => some ([v], r1)
      | _ => none

/-- One JSON value, fuel-bounded (the fuel dominates the nesting depth and
member counts; `jsonParse` supplies more than enough). -/
def parseValue : Nat → List Char → Option (Json × List Char)
  | 0, _ => none
  | fuel + 1, cs =>
    match skipWs cs with
    | '{' :: r =>
      match skipWs r with
      | '}' :: r1 => some (.obj [], r1)
      | r1 =>
        match parseMembers (parseValue fuel) fuel r1 with
        | none => none
        | some (fields, r2) => some (.obj fields, r2)
    | '[' :: r =>
      match skipWs r with
      | ']' :: r1 => some (.arr [], r1)
      | r1 =>
        match parseElements (parseValue fuel) fuel r1 with
        | none => none
        | some (elems, r2) => some (.arr elems, r2)
    | '"' :: r =>
      match parseStringChars r with
      | none => none
      | some (chars, r1) => some (.str chars.asString, r1)
    | 't' :: 'r' :: 'u' :: 'e' :: r => some (.bool true, r)
    | 'f' :: 'a' :: 'l' :: 's' :: 'e' :: r => some (.bool false, r)
    | 'n' :: 'u' :: 'l' :: 'l' :: r => some (.null, r)
    | cs1 =>
      match parseNumber cs1 with
      | none => none
      | some (q, r) => some (.num q, r)

/-- Modelled from the host environment: `JSON.parse` over the ECMA-404 JSON
grammar.  `none` models the `SyntaxError` throw on malformed input
(including trailing garbage); numbers are kept as exact rationals. -/
def jsonParse (s : String) : Option Json :=
  match parseValue (4 * s.length + 16) s.data with
  | none => none
  | some (v, rest) => if skipWs rest = [] then some v else none

/-- Embedding of the cart `useState` initializer:
`try { const raw = localStorage.getItem('cookie_shop_cart'); return raw ? JSON.parse(raw) : {}; } catch (e) { return {}; }`.
`none` models an absent slot (JS `null`); an empty stored string is falsy,
giving the empty object; a parse failure throws and is caught, giving the
empty object; a successful parse is returned unvalidated. -/
def load (slot : Option String) : Json :=
  match slot with
  | none => Json.obj []
  | some raw =>
    if raw = "" then Json.obj []
    else
      match jsonParse raw with
      | some v => v
      | none => Json.obj []

/-- C7 counterexample: the stored blob `"42"` parses successfully, so
`load` returns the JSON number 42 — a value that is not a
productId→quantity mapping — instead of the empty mapping; the claim that
`load` always returns a mapping fails on such corrupt-but-parseable
blobs. -/
theorem load_not_always_mapping :
    load (some "42") = Json.num 42 ∧ (load (some "42")).isObj = false := by
  constructor
  · with_unfolding_all rfl
  · with_unfolding_all rfl

/-- C7 amended: `load` can never fail the caller — an absent slot, an
empty stored string, and an unparseable blob all yield the empty mapping —
but a blob that parses is returned unvalidated, so the result is a
productId→quantity mapping candidate only when the stored blob was a JSON
object (e.g. a stored number yields a non-mapping JSON value). -/
theorem load_total_spec :
    (load none = Json.obj []) ∧
    (load (some "") = Json.obj []) ∧
    (∀ raw : String, raw ≠ "" → jsonParse raw = none →
      load (some raw) = Json.obj []) ∧
    (∀ raw : String, ∀ v : Json, raw ≠ "" → jsonParse raw = some v →
      load (some raw) = v) := by
  refine ⟨rfl, by simp [load], ?_, ?_⟩
  · intro raw hne hp
    simp [load, hne, hp]
  · intro raw v hne hp
    simp [load, hne, hp]

/-- Witness for C7 amended: the unparseable blob `"x"` loads as the empty
mapping, and the parseable non-object blob `"true"` loads as the JSON
boolean. -/
theorem load_total_spec_witness :
    load (some "x") = Json.obj [] ∧ load (some "true") = Json.bool true :=
  ⟨load_total_spec.2.2.1 "x" (by decide) (by with_unfolding_all rfl),
   load_total_spec.2.2.2 "true" (Json.bool true) (by decide)
     (by with_unfolding_all rfl)⟩

end CookieShop
